import Mathlib

/-!
Shallow embedding of the difference engine and statement pipeline of the
yuhuo-sync-db repository (Go): the comparator (sync/comparator.go), the SQL
generator (sync/sqlgen.go), the executor (sync/executor.go), the verifier
(sync/verifier.go) and the shared data model (models/*.go), together with
theorems checking the specification's claims about them.

Go strings are modelled as Lean `String` / `List Char`; Go maps keyed by
strings are modelled as association lists in a deterministic order (Go's map
iteration order is unspecified; no verified property depends on it); the
database/sql side is modelled by a concrete `Database` value whose metadata
queries always succeed (the Go error paths fire only on transport failures,
which are external to the algorithms under verification).
-/

namespace YuhuoSync

/-! ### Character-level models of the Go `strings` functions used by the code -/

/-- Model of `unicode.IsSpace` restricted to the ASCII whitespace characters
(space, tab, newline, vertical tab, form feed, carriage return). -/
def goIsSpace (c : Char) : Bool :=
  c = ' ' || c = '\t' || c = '\n' || c = Char.ofNat 11 || c = Char.ofNat 12 || c = '\r'

/-- Model of `strings.ToUpper` (character-wise). -/
def goToUpper (s : List Char) : List Char := s.map Char.toUpper

/-- Model of `strings.ToLower` (character-wise). -/
def goToLower (s : List Char) : List Char := s.map Char.toLower

/-- Model of `strings.Index(s, c)` for a one-character pattern: `some i` is the
index of the first occurrence (Go returns `-1`, modelled as `none`, when the
character is absent). -/
def indexOfChar (c : Char) : List Char → Option Nat
  | [] => none
  | x :: xs => if x = c then some 0 else (indexOfChar c xs).map Nat.succ

/-- Model of `strings.TrimSpace`. -/
def goTrimSpace (s : List Char) : List Char :=
  ((s.dropWhile goIsSpace).reverse.dropWhile goIsSpace).reverse

/-- Accumulator pass behind `goFields`: splits at whitespace, dropping empty
words, with the current word held reversed in `acc`. -/
def goFieldsAux : List Char → List Char → List (List Char)
  | [], acc => if acc.isEmpty then [] else [acc.reverse]
  | c :: rest, acc =>
    if goIsSpace c then
      if acc.isEmpty then goFieldsAux rest [] else acc.reverse :: goFieldsAux rest []
    else
      goFieldsAux rest (c :: acc)

/-- Model of `strings.Fields`: the maximal whitespace-free words of `s`. -/
def goFields (s : List Char) : List (List Char) := goFieldsAux s []

/-- Model of `strings.Join(words, " ")`. -/
def joinSpace (ws : List (List Char)) : List Char := List.intercalate [' '] ws

/-- Model of `strings.Contains` (substring search). -/
def goContains : List Char → List Char → Bool
  | [], needle => needle.isEmpty
  | hay@(_ :: rest), needle => needle.isPrefixOf hay || goContains rest needle

/-- Model of one `strings.ReplaceAll(s, string(from), string(to))` pass for a
one-character pattern and replacement. -/
def goReplaceAllChar (a b : Char) (s : List Char) : List Char :=
  s.map fun c => if c = a then b else c

/-! ### Dynamically-typed scalar row values (Go `interface{}` as read by the
database driver) and `fmt.Sprintf("%v", ·)` rendering -/

/-- A dynamically-typed scalar held in a row map. -/
inductive Value where
  | vNull : Value
  | vInt : Int → Value
  | vStr : String → Value
  | vBool : Bool → Value
deriving DecidableEq

/-- Model of `fmt.Sprintf("%v", v)` on the scalars of `Value` (`%v` of a nil
interface prints `<nil>`). -/
def render : Value → String
  | .vNull => "<nil>"
  | .vInt n => toString n
  | .vStr s => s
  | .vBool true => "true"
  | .vBool false => "false"

/-- A row: a mapping from column name to scalar, as an association list
(Go: `map[string]interface{}`). -/
abbrev Row : Type := List (String × Value)

/-- Model of Go map lookup `row[key]` returning `(value, ok)`. -/
def lookupRow (r : Row) (k : String) : Option Value :=
  (List.find? (fun p => p.1 = k) r).map (·.2)

/-! ### Data model (models/column.go, models/index.go, models/table.go,
models/view.go, models/difference.go) -/

/-- models.Column (the `Type` field is written `Type'`, `Type` being reserved
in Lean). -/
structure Column where
  Name : String
  Type' : String
  Length : Int
  IsNullable : Bool
  DefaultValue : Option String
  IsAutoIncrement : Bool
  Charset : Option String
  Collation : Option String
  Extra : String
  Comment : Option String
deriving DecidableEq

/-- models.Index. -/
structure Index where
  Name : String
  Type' : String
  Columns : List String
deriving DecidableEq

/-- models.TableDefinition. -/
structure TableDefinition where
  TableName : String
  Columns : List Column
  Indexes : List Index
  PrimaryKey : String
  Charset : Option String
  Collation : Option String
deriving DecidableEq

/-- models.TableDefinition.HasPrimaryKey. -/
def TableDefinition.HasPrimaryKey (t : TableDefinition) : Bool :=
  t.PrimaryKey ≠ ""

/-- models.ViewDefinition. -/
structure ViewDefinition where
  ViewName : String
  Definition : String
deriving DecidableEq

/-- models.ColumnModification. -/
structure ColumnModification where
  ColumnName : String
  OldColumn : Column
  NewColumn : Column
deriving DecidableEq

/-- models.StructureDifference, with the fields the comparator and the SQL
generator use (`IsNewTable`, the attached source `TableDefinition`, added
columns carried as full `Column` values). -/
structure StructureDifference where
  TableName : String
  IsNewTable : Bool
  TableDefinition : Option TableDefinition
  ColumnsAdded : List Column
  ColumnsDeleted : List String
  ColumnsModified : List ColumnModification
  IndexesAdded : List Index
  IndexesDeleted : List Index
deriving DecidableEq

/-- models.UpdateRow. -/
structure UpdateRow where
  PrimaryKeyValue : Value
  OldValues : Row
  NewValues : Row
deriving DecidableEq

/-- models.DataDifference. -/
structure DataDifference where
  TableName : String
  RowsToInsert : List Row
  RowsToDelete : List Row
  RowsToUpdate : List UpdateRow
  PrimaryKeyName : String
deriving DecidableEq

/-- models.ViewDifference. -/
structure ViewDifference where
  ViewName : String
  Operation : String
  OldDefinition : String
  NewDefinition : String
deriving DecidableEq

/-- models.SyncDifference; the Go `DataDifferences` map keyed by table name is
an association list here. -/
structure SyncDifference where
  StructureDifferences : List StructureDifference
  DataDifferences : List (String × DataDifference)
  ViewDifferences : List ViewDifference
deriving DecidableEq

/-- models.SyncDifference.HasDifferences: `len(...) > 0` on each of the three
collections. -/
def SyncDifference.HasDifferences (s : SyncDifference) : Bool :=
  decide (0 < s.StructureDifferences.length) ||
    decide (0 < s.DataDifferences.length) ||
      decide (0 < s.ViewDifferences.length)

/-! ### The database seen through the metadata provider (database/query.go)

A concrete snapshot of one database side. The provider operations
(`GetTables`, `GetTableDefinition`, `GetViews`, `GetPrimaryKeyValues`,
`GetRowByPrimaryKey`) are read off this snapshot; they are total here, the
Go error returns firing only on transport failures. -/
structure Database where
  tables : List (String × TableDefinition)
  views : List ViewDefinition
  rows : List (String × List Row)
deriving DecidableEq

/-- database.QueryHelper.GetTables: the base table names. -/
def Database.GetTables (db : Database) : List String := db.tables.map (·.1)

/-- database.QueryHelper.GetTableDefinition (total: called on names returned
by `GetTables`; a missing name yields an inert empty definition). -/
def Database.GetTableDefinition (db : Database) (name : String) : TableDefinition :=
  ((db.tables.find? (fun p => p.1 = name)).map (·.2)).getD
    { TableName := name, Columns := [], Indexes := [], PrimaryKey := "",
      Charset := none, Collation := none }

/-- database.QueryHelper.GetViews. -/
def Database.GetViews (db : Database) : List ViewDefinition := db.views

/-- The stored rows of one table. -/
def Database.tableRows (db : Database) (table : String) : List Row :=
  ((db.rows.find? (fun p => p.1 = table)).map (·.2)).getD []

/-- database.QueryHelper.GetPrimaryKeyValues: the distinct primary-key values
of a table (Go collects them into a `map[interface{}]bool`; the
first-occurrence order stands in for Go's unspecified map order). -/
def Database.GetPrimaryKeyValues (db : Database) (table pkCol : String) : List Value :=
  ((db.tableRows table).map fun r => (lookupRow r pkCol).getD .vNull).eraseDups

/-- database.QueryHelper.GetRowByPrimaryKey: the first row whose primary-key
column holds `v` (Go returns a nil map when no row matches, modelled as the
empty row). -/
def Database.GetRowByPrimaryKey (db : Database) (table pkCol : String) (v : Value) : Row :=
  ((db.tableRows table).find? fun r => (lookupRow r pkCol).getD .vNull = v).getD []

/-! ### Comparator (sync/comparator.go) -/

/-- sync/comparator.go normalizeType: uppercase, cut from the first `(` to the
first `)` when the `(` is not the leading character and precedes the `)`,
then `TrimSpace` and rejoin the `Fields` with single spaces (Go's `-1`
not-found index is the `none` case, under which the `idx > 0 && endIdx > idx`
guard is false). -/
def normalizeTypeCh (s : List Char) : List Char :=
  let u := goToUpper s
  let cut :=
    match indexOfChar '(' u, indexOfChar ')' u with
    | some idx, some endIdx =>
      if 0 < idx ∧ idx < endIdx then u.take idx ++ u.drop (endIdx + 1) else u
    | _, _ => u
  joinSpace (goFields (goTrimSpace cut))

/-- normalizeType on `String`. -/
def normalizeType (s : String) : String := ⟨normalizeTypeCh s.data⟩

/-- sync/comparator.go columnsEqual: name, normalized type, nullability,
default value (nil-safely), auto-increment; charset, collation (and every
other field) are not compared. -/
def columnsEqual (col1 col2 : Column) : Bool :=
  if col1.Name ≠ col2.Name then false
  else if normalizeType col1.Type' ≠ normalizeType col2.Type' then false
  else if col1.IsNullable ≠ col2.IsNullable then false
  else if col1.DefaultValue.isNone ≠ col2.DefaultValue.isNone then false
  else if (match col1.DefaultValue, col2.DefaultValue with
          | some d1, some d2 => d1 != d2
          | _, _ => false) then false
  else if col1.IsAutoIncrement ≠ col2.IsAutoIncrement then false
  else true

/-- Go map lookup in a name-keyed column map built from a slice. -/
def findCol (cols : List Column) (name : String) : Option Column :=
  cols.find? fun c => c.Name = name

/-- sync/comparator.go compareColumns: added = source columns absent from the
target by name; modified = present on both sides but not `columnsEqual`
(old = target snapshot, new = source snapshot); deleted = target column names
absent from the source. Returns `((added, deleted), modifications)` as the Go
function does. -/
def compareColumns (sourceColumns targetColumns : List Column) :
    (List Column × List String) × List ColumnModification :=
  let added := sourceColumns.filter fun c => (findCol targetColumns c.Name).isNone
  let modifications := sourceColumns.filterMap fun sourceCol =>
    match findCol targetColumns sourceCol.Name with
    | none => none
    | some targetCol =>
      if columnsEqual sourceCol targetCol then none
      else some { ColumnName := sourceCol.Name, OldColumn := targetCol, NewColumn := sourceCol }
  let deleted := (targetColumns.filter fun c => (findCol sourceColumns c.Name).isNone).map (·.Name)
  ((added, deleted), modifications)

/-- Go map lookup in a name-keyed index map built from a slice. -/
def findIdx (idxs : List Index) (name : String) : Option Index :=
  idxs.find? fun i => i.Name = name

/-- sync/comparator.go compareIndexes: pure set difference keyed by index name
(the Go code iterates the two name-keyed maps; source/target slice order
stands in for the unspecified map order). -/
def compareIndexes (sourceIndexes targetIndexes : List Index) :
    List Index × List Index :=
  let added := sourceIndexes.filter fun i => (findIdx targetIndexes i.Name).isNone
  let deleted := targetIndexes.filter fun i => (findIdx sourceIndexes i.Name).isNone
  (added, deleted)

/-- sync/comparator.go compareTableStructures: one `StructureDifference` is
appended for every table of the source list, whether or not anything
differs; a table absent from the target is flagged `IsNewTable` and carries
the full source definition. -/
def compareTableStructures (src tgt : Database) (sourceTables targetTables : List String) :
    List StructureDifference :=
  sourceTables.map fun tableName =>
    let sourceDef := src.GetTableDefinition tableName
    if ¬ targetTables.contains tableName then
      { TableName := tableName, IsNewTable := true, TableDefinition := some sourceDef,
        ColumnsAdded := sourceDef.Columns, ColumnsDeleted := [], ColumnsModified := [],
        IndexesAdded := sourceDef.Indexes, IndexesDeleted := [] }
    else
      let targetDef := tgt.GetTableDefinition tableName
      let colDiff := compareColumns sourceDef.Columns targetDef.Columns
      let indexDiff := compareIndexes sourceDef.Indexes targetDef.Indexes
      { TableName := tableName, IsNewTable := false, TableDefinition := none,
        ColumnsAdded := colDiff.1.1, ColumnsDeleted := colDiff.1.2,
        ColumnsModified := colDiff.2,
        IndexesAdded := indexDiff.1, IndexesDeleted := indexDiff.2 }

/-- sync/comparator.go rowsEqual: equal sizes, and every key of `row1` found
in `row2` with the same `%v` rendering. -/
def rowsEqual (row1 row2 : Row) : Bool :=
  if row1.length ≠ row2.length then false
  else row1.all fun p =>
    match lookupRow row2 p.1 with
    | none => false
    | some val2 => render p.2 == render val2

/-- sync/comparator.go compareTableDataByPrimaryKey: source keys absent from
the target become inserts, shared keys with unequal rows become updates
(old = target row, new = source row), target keys absent from the source
become deletes. -/
def compareTableDataByPrimaryKey (src tgt : Database) (tableName primaryKeyColumn : String) :
    DataDifference :=
  let sourcePKValues := src.GetPrimaryKeyValues tableName primaryKeyColumn
  let targetPKValues := tgt.GetPrimaryKeyValues tableName primaryKeyColumn
  let inserts := (sourcePKValues.filter fun v => ¬ targetPKValues.contains v).map
    fun v => src.GetRowByPrimaryKey tableName primaryKeyColumn v
  let updates := sourcePKValues.filterMap fun v =>
    if targetPKValues.contains v then
      let sourceRow := src.GetRowByPrimaryKey tableName primaryKeyColumn v
      let targetRow := tgt.GetRowByPrimaryKey tableName primaryKeyColumn v
      if rowsEqual sourceRow targetRow then none
      else some { PrimaryKeyValue := v, OldValues := targetRow, NewValues := sourceRow }
    else none
  let deletes := (targetPKValues.filter fun v => ¬ sourcePKValues.contains v).map
    fun v => tgt.GetRowByPrimaryKey tableName primaryKeyColumn v
  { TableName := tableName, RowsToInsert := inserts, RowsToDelete := deletes,
    RowsToUpdate := updates, PrimaryKeyName := primaryKeyColumn }

/-- sync/comparator.go compareTableData: only tables opted into data sync and
possessing a primary key are compared; the keyed map is an association list
in source-table order. -/
def compareTableData (src tgt : Database) (sourceTables syncDataTables : List String) :
    List (String × DataDifference) :=
  sourceTables.filterMap fun tableName =>
    if ¬ syncDataTables.contains tableName then none
    else
      let sourceDef := src.GetTableDefinition tableName
      if ¬ sourceDef.HasPrimaryKey then none
      else some (tableName, compareTableDataByPrimaryKey src tgt tableName sourceDef.PrimaryKey)

/-- sync/comparator.go normalizeViewDefinition: trim, then repeatedly replace
double spaces by single spaces until none remains, then map newlines and tabs
to spaces, then lowercase. The fixpoint loop is run with `length s` rounds of
fuel: each round of `replacePairSpaces` on a string still containing a double
space strictly shrinks it, so the fuel always suffices to reach the fixpoint
the Go `for strings.Contains(def, "  ")` loop reaches. -/
def replacePairSpaces : List Char → List Char
  | ' ' :: ' ' :: rest => ' ' :: replacePairSpaces rest
  | x :: rest => x :: replacePairSpaces rest
  | [] => []

/-- Whether the string still contains two adjacent spaces (`strings.Contains(def, "  ")`). -/
def hasPairSpaces : List Char → Bool
  | ' ' :: ' ' :: _ => true
  | _ :: rest => hasPairSpaces rest
  | [] => false

/-- The collapse loop of normalizeViewDefinition, fuelled (see
`normalizeViewDefinitionCh`). -/
def collapseSpacesAux : Nat → List Char → List Char
  | 0, s => s
  | fuel + 1, s => if hasPairSpaces s then collapseSpacesAux fuel (replacePairSpaces s) else s

/-- normalizeViewDefinition on `List Char`. -/
def normalizeViewDefinitionCh (s : List Char) : List Char :=
  let t := goTrimSpace s
  let t := collapseSpacesAux t.length t
  let t := goReplaceAllChar '\n' ' ' t
  let t := goReplaceAllChar '\t' ' ' t
  goToLower t

/-- sync/comparator.go normalizeViewDefinition. -/
def normalizeViewDefinition (def_ : String) : String := ⟨normalizeViewDefinitionCh def_.data⟩

/-- Go map lookup in a name-keyed view map built from a slice. -/
def findView (views : List ViewDefinition) (name : String) : Option ViewDefinition :=
  views.find? fun v => v.ViewName = name

/-- sync/comparator.go compareViews: source views absent from the target are
`CREATE`; present on both sides with normalized definitions unequal,
`MODIFY`; target views absent from the source, `DROP`. -/
def compareViews (src tgt : Database) : List ViewDifference :=
  let sourceViews := src.GetViews
  let targetViews := tgt.GetViews
  let createOrModify := sourceViews.filterMap fun sourceView =>
    match findView targetViews sourceView.ViewName with
    | none =>
      some { ViewName := sourceView.ViewName, Operation := "CREATE",
             OldDefinition := "", NewDefinition := sourceView.Definition }
    | some targetView =>
      if normalizeViewDefinition sourceView.Definition ≠
          normalizeViewDefinition targetView.Definition then
        some { ViewName := sourceView.ViewName, Operation := "MODIFY",
               OldDefinition := targetView.Definition,
               NewDefinition := sourceView.Definition }
      else none
  let drops := targetViews.filterMap fun targetView =>
    if (findView sourceViews targetView.ViewName).isNone then
      some { ViewName := targetView.ViewName, Operation := "DROP",
             OldDefinition := targetView.Definition, NewDefinition := "" }
    else none
  createOrModify ++ drops

/-- sync/comparator.go Comparator.CompareDifferences. -/
def CompareDifferences (src tgt : Database) (syncDataTables : List String) : SyncDifference :=
  let sourceTables := src.GetTables
  let targetTables := tgt.GetTables
  { StructureDifferences := compareTableStructures src tgt sourceTables targetTables,
    DataDifferences := compareTableData src tgt sourceTables syncDataTables,
    ViewDifferences := compareViews src tgt }

/-! ### SQL generator (sync/sqlgen.go) -/

/-- sync/sqlgen.go escapeValue: nil → `NULL`; string → single-quoted with
backslashes doubled first and then quotes backslash-escaped (the two
sequential `strings.ReplaceAll` passes); numbers → `%v`; booleans → `1`/`0`. -/
def escapeValue : Value → String
  | .vNull => "NULL"
  | .vStr v =>
    let pass1 := v.data.flatMap fun c => if c = '\\' then ['\\', '\\'] else [c]
    let pass2 := pass1.flatMap fun c => if c = '\'' then ['\\', '\''] else [c]
    ⟨'\'' :: pass2 ++ ['\'']⟩
  | .vInt n => toString n
  | .vBool true => "1"
  | .vBool false => "0"

/-- sync/sqlgen.go buildColumnDefinition: backquoted name, raw type, a length
qualifier only when the type has none and is a character type, default value,
`NOT NULL`, `AUTO_INCREMENT`, charset, collation. -/
def buildColumnDefinition (col : Column) : String :=
  let base := "`" ++ col.Name ++ "` " ++ col.Type'
  let upperType := goToUpper col.Type'.data
  let base :=
    if col.Length > 0 ∧ ¬ goContains upperType "(".data = true then
      if goContains upperType "VARCHAR".data || goContains upperType "CHAR".data then
        base ++ "(" ++ toString col.Length ++ ")"
      else base
    else base
  let base := match col.DefaultValue with
    | some d => base ++ " DEFAULT " ++ escapeValue (.vStr d)
    | none => base
  let base := if ¬ col.IsNullable then base ++ " NOT NULL" else base
  let base := if col.IsAutoIncrement then base ++ " AUTO_INCREMENT" else base
  let base := match col.Charset with
    | some cs => base ++ " CHARACTER SET " ++ cs
    | none => base
  match col.Collation with
  | some co => base ++ " COLLATE " ++ co
  | none => base

/-- sync/sqlgen.go generateCreateTableSQL: the CREATE TABLE statement is
assembled field by field from the modelled columns, primary key and indexes
(the Go comma/newline placement, including the `continue` that skips a
PRIMARY index while the position check still counts it, is kept). -/
def generateCreateTableSQL (tableName : String) (tableDef : TableDefinition) : String :=
  let colPart := String.join <| tableDef.Columns.enum.map fun p =>
    "  " ++ buildColumnDefinition p.2 ++
      (if p.1 < tableDef.Columns.length - 1 then ",\n"
       else if tableDef.PrimaryKey ≠ "" ∨ 0 < tableDef.Indexes.length then ",\n"
       else "\n")
  let pkPart :=
    if tableDef.PrimaryKey ≠ "" then
      "  PRIMARY KEY (`" ++ tableDef.PrimaryKey ++ "`)" ++
        (if 0 < tableDef.Indexes.length then ",\n" else "\n")
    else ""
  let idxPart := String.join <| tableDef.Indexes.enum.map fun p =>
    if p.2.Type' = "PRIMARY" then ""
    else
      (if p.2.Type' = "UNIQUE" then
        "  UNIQUE KEY `" ++ p.2.Name ++ "` (`" ++ String.intercalate "`, `" p.2.Columns ++ "`)"
      else
        "  KEY `" ++ p.2.Name ++ "` (`" ++ String.intercalate "`, `" p.2.Columns ++ "`)") ++
        (if p.1 < tableDef.Indexes.length - 1 then ",\n" else "\n")
  "CREATE TABLE `" ++ tableName ++ "` (\n" ++ colPart ++ pkPart ++ idxPart ++ ");"

/-- sync/sqlgen.go generateAddIndexSQL. -/
def generateAddIndexSQL (tableName : String) (idx : Index) : String :=
  let cols := "`" ++ String.intercalate "`, `" idx.Columns ++ "`"
  if idx.Type' = "PRIMARY" then
    "ALTER TABLE `" ++ tableName ++ "` ADD PRIMARY KEY (" ++ cols ++ ");"
  else if idx.Type' = "UNIQUE" then
    "ALTER TABLE `" ++ tableName ++ "` ADD UNIQUE KEY `" ++ idx.Name ++ "` (" ++ cols ++ ");"
  else
    "ALTER TABLE `" ++ tableName ++ "` ADD INDEX `" ++ idx.Name ++ "` (" ++ cols ++ ");"

/-- sync/sqlgen.go generateStructureSQL: a new table with an attached
definition yields exactly the assembled CREATE TABLE statement and nothing
else; otherwise ALTER statements for added, deleted and modified columns,
then deleted and added indexes, in that order. -/
def generateStructureSQL (structDiff : StructureDifference) : List String :=
  match structDiff.IsNewTable, structDiff.TableDefinition with
  | true, some tableDef => [generateCreateTableSQL structDiff.TableName tableDef]
  | _, _ =>
    let tableName := structDiff.TableName
    (structDiff.ColumnsAdded.map fun col =>
      "ALTER TABLE `" ++ tableName ++ "` ADD COLUMN " ++ buildColumnDefinition col ++ ";") ++
    (structDiff.ColumnsDeleted.map fun colName =>
      "ALTER TABLE `" ++ tableName ++ "` DROP COLUMN `" ++ colName ++ "`;") ++
    (structDiff.ColumnsModified.map fun colMod =>
      "ALTER TABLE `" ++ tableName ++ "` MODIFY COLUMN " ++
        buildColumnDefinition colMod.NewColumn ++ ";") ++
    (structDiff.IndexesDeleted.map fun idx =>
      if idx.Type' = "PRIMARY" then "ALTER TABLE `" ++ tableName ++ "` DROP PRIMARY KEY;"
      else "ALTER TABLE `" ++ tableName ++ "` DROP INDEX `" ++ idx.Name ++ "`;") ++
    (structDiff.IndexesAdded.map fun idx => generateAddIndexSQL tableName idx)

/-- The INSERT statement for one row (the loop body of generateInsertSQL; the
row's association-list order stands in for Go's unspecified map order). -/
def insertRowSQL (tableName : String) (row : Row) : String :=
  let colStr := "`" ++ String.intercalate "`, `" (row.map (·.1)) ++ "`"
  let valStr := String.intercalate ", " (row.map fun p => escapeValue p.2)
  "INSERT INTO `" ++ tableName ++ "` (" ++ colStr ++ ") VALUES (" ++ valStr ++ ");"

/-- sync/sqlgen.go generateInsertSQL: one INSERT per row. -/
def generateInsertSQL (tableName : String) (rows : List Row) : List String :=
  rows.map (insertRowSQL tableName)

/-- The SET-clause parts of generateUpdateSQL: the Go loop over `NewValues`
with `continue` on the primary-key column. -/
def updateSetParts (pkColumn : String) : Row → List String
  | [] => []
  | p :: rest =>
    if p.1 = pkColumn then updateSetParts pkColumn rest
    else ("`" ++ p.1 ++ "` = " ++ escapeValue p.2) :: updateSetParts pkColumn rest

/-- sync/sqlgen.go generateUpdateSQL: every non-primary-key column of the new
values is assigned; the WHERE clause filters on primary-key equality. -/
def generateUpdateSQL (tableName pkColumn : String) (updateRow : UpdateRow) : String :=
  let setClause := String.intercalate ", " (updateSetParts pkColumn updateRow.NewValues)
  let whereClause := "`" ++ pkColumn ++ "` = " ++ escapeValue updateRow.PrimaryKeyValue
  "UPDATE `" ++ tableName ++ "` SET " ++ setClause ++ " WHERE " ++ whereClause ++ ";"

/-- The DELETE statement for one row (the loop body of generateDeleteSQL; a
row missing the primary-key column yields Go's nil interface, rendered NULL). -/
def deleteRowSQL (tableName pkColumn : String) (row : Row) : String :=
  "DELETE FROM `" ++ tableName ++ "` WHERE `" ++ pkColumn ++ "` = " ++
    escapeValue ((lookupRow row pkColumn).getD .vNull) ++ ";"

/-- sync/sqlgen.go generateDeleteSQL: one DELETE per row. -/
def generateDeleteSQL (tableName pkColumn : String) (rows : List Row) : List String :=
  rows.map (deleteRowSQL tableName pkColumn)

/-- sync/sqlgen.go generateDataSQL: inserts, then updates, then deletes, with
the Go `len > 0` guards kept. -/
def generateDataSQL (dataDiff : DataDifference) : List String :=
  let s1 := if 0 < dataDiff.RowsToInsert.length then
    generateInsertSQL dataDiff.TableName dataDiff.RowsToInsert else []
  let s2 := dataDiff.RowsToUpdate.map
    (generateUpdateSQL dataDiff.TableName dataDiff.PrimaryKeyName)
  let s3 := if 0 < dataDiff.RowsToDelete.length then
    generateDeleteSQL dataDiff.TableName dataDiff.PrimaryKeyName dataDiff.RowsToDelete else []
  s1 ++ s2 ++ s3

/-- sync/sqlgen.go GenerateSQL: the four accumulation loops over the shared
`sqls` slice, in source order (drop views, structural statements, create
views, data statements). -/
def GenerateSQL (diff : SyncDifference) : List String :=
  let s1 := diff.ViewDifferences.foldl
    (fun acc viewDiff =>
      if viewDiff.Operation == "DROP" || viewDiff.Operation == "MODIFY" then
        acc ++ ["DROP VIEW IF EXISTS `" ++ viewDiff.ViewName ++ "`;"]
      else acc) []
  let s2 := diff.StructureDifferences.foldl
    (fun acc structDiff => acc ++ generateStructureSQL structDiff) s1
  let s3 := diff.ViewDifferences.foldl
    (fun acc viewDiff =>
      if viewDiff.Operation == "CREATE" || viewDiff.Operation == "MODIFY" then
        acc ++ ["CREATE VIEW `" ++ viewDiff.ViewName ++ "` AS " ++ viewDiff.NewDefinition ++ ";"]
      else acc) s2
  diff.DataDifferences.foldl (fun acc p => acc ++ generateDataSQL p.2) s3

/-! ### Executor (sync/executor.go)

Statement execution against the target connection is abstracted by a function
`exec : String → Option String` giving the error, if any, that
`targetConn.Exec` reports for the statement; the logger side effect and the
wall-clock `Duration` field carry no verified content and are not modelled. -/

/-- sync/executor.go ExecutionResult (without the wall-clock `Duration`). -/
structure ExecutionResult where
  SQL : String
  Success : Bool
  Error : Option String
  Message : String
deriving DecidableEq

/-- sync/executor.go executeSingleSQL. -/
def executeSingleSQL (exec : String → Option String) (sql : String) : ExecutionResult :=
  match exec sql with
  | some err => { SQL := sql, Success := false, Error := some err, Message := "Error: " ++ err }
  | none => { SQL := sql, Success := true, Error := none, Message := "Success" }

/-- sync/executor.go ExecuteSQL: the loop appending one result per statement,
continuing past failures. -/
def ExecuteSQL (exec : String → Option String) : List String → List ExecutionResult
  | [] => []
  | sql :: rest => executeSingleSQL exec sql :: ExecuteSQL exec rest

/-- sync/executor.go GetSummary: `(total, success, failed)`. -/
def GetSummary (results : List ExecutionResult) : Nat × Nat × Nat :=
  let counts := results.foldl
    (fun (p : Nat × Nat) r => if r.Success then (p.1 + 1, p.2) else (p.1, p.2 + 1)) (0, 0)
  (results.length, counts.1, counts.2)

/-- sync/executor.go GetFailedResults. -/
def GetFailedResults (results : List ExecutionResult) : List ExecutionResult :=
  results.filter fun r => !r.Success

/-! ### Verifier (sync/verifier.go) -/

/-- sync/verifier.go Verifier.VerifySync: re-run the comparator; passed iff
the resulting difference is empty under `HasDifferences`. -/
def VerifySync (src tgt : Database) (syncDataTables : List String) : Bool × String :=
  let diff := CompareDifferences src tgt syncDataTables
  if ¬ diff.HasDifferences then
    (true, "Sync verification passed! No differences found.")
  else
    (false,
      "Sync verification failed! Still have differences:\n" ++
        "Structure differences: " ++ toString diff.StructureDifferences.length ++ "\n" ++
        "Data differences: " ++ toString diff.DataDifferences.length ++ "\n" ++
        "View differences: " ++ toString diff.ViewDifferences.length)

/-! ### Concrete fixtures -/

/-- An auto-increment integer primary-key column as INFORMATION_SCHEMA reports
one. -/
def idCol : Column :=
  { Name := "id", Type' := "INT(11)", Length := 0, IsNullable := false,
    DefaultValue := none, IsAutoIncrement := true, Charset := none,
    Collation := none, Extra := "auto_increment", Comment := none }

/-- A `users` table with the single column `id` and its primary-key index. -/
def usersDef : TableDefinition :=
  { TableName := "users", Columns := [idCol],
    Indexes := [{ Name := "PRIMARY", Type' := "PRIMARY", Columns := ["id"] }],
    PrimaryKey := "id", Charset := none, Collation := none }

/-- A database holding exactly the `users` table with one row. -/
def db1 : Database :=
  { tables := [("users", usersDef)], views := [],
    rows := [("users", [[("id", .vInt 1)]])] }

/-- A nullable plain `INT` column named `id` (no extras), for a minimal
CREATE TABLE fixture. -/
def plainIdCol : Column :=
  { Name := "id", Type' := "INT", Length := 0, IsNullable := true,
    DefaultValue := none, IsAutoIncrement := false, Charset := none,
    Collation := none, Extra := "", Comment := none }

/-- A minimal definition of a table `t` with the single column `id`. -/
def tDef : TableDefinition :=
  { TableName := "t", Columns := [plainIdCol], Indexes := [],
    PrimaryKey := "id", Charset := none, Collation := none }

/-- A source database holding a table `t` that the empty target lacks. -/
def dbNewSrc : Database :=
  { tables := [("t", tDef)], views := [], rows := [] }

/-- A database with no tables, views or rows. -/
def dbEmpty : Database := { tables := [], views := [], rows := [] }

/-- A column that carries a comment. -/
def commentedCol : Column :=
  { Name := "c", Type' := "VARCHAR(50)", Length := 0, IsNullable := true,
    DefaultValue := none, IsAutoIncrement := false, Charset := none,
    Collation := none, Extra := "", Comment := some "old comment" }

/-- The same column with only the comment changed. -/
def recommentedCol : Column := { commentedCol with Comment := some "new comment" }

/-- A database whose single view body is `"a b"`. -/
def dbViewSpace : Database :=
  { tables := [], views := [{ ViewName := "v", Definition := "a b" }], rows := [] }

/-- A database whose single view body is `"a\n\nb"`: the same words, the
internal whitespace written as two newlines. -/
def dbViewNewlines : Database :=
  { tables := [], views := [{ ViewName := "v", Definition := "a\n\nb" }], rows := [] }

/-! ### C10: one structure record per source table -/

/-- C10: the comparator appends one StructureDifference for every table of the
source — the records are in source-table order with matching names, the
record of a table identical on both sides has empty added/deleted/modified
collections (shown on `db1` against itself), and whenever the source has at
least one table the returned difference reports `HasDifferences = true`
regardless of any actual difference. -/
theorem structure_record_per_source_table (src tgt : Database) (sync : List String) :
    ((CompareDifferences src tgt sync).StructureDifferences.map (·.TableName)) = src.GetTables
      ∧ (src.tables ≠ [] → (CompareDifferences src tgt sync).HasDifferences = true)
      ∧ (CompareDifferences db1 db1 []).StructureDifferences =
          [{ TableName := "users", IsNewTable := false, TableDefinition := none,
             ColumnsAdded := [], ColumnsDeleted := [], ColumnsModified := [],
             IndexesAdded := [], IndexesDeleted := [] }] := by
  refine ⟨?_, ?_, by decide⟩
  · simp only [CompareDifferences, compareTableStructures, List.map_map]
    refine (List.map_congr_left fun tableName _ => ?_).trans (List.map_id _)
    simp only [Function.comp_apply, id_eq]
    split <;> rfl
  · intro h
    have hlen : 0 < src.tables.length := List.length_pos.mpr h
    simp [SyncDifference.HasDifferences, CompareDifferences, compareTableStructures,
      Database.GetTables, hlen]

/-- Witness for C10 at the concrete database `db1`: its table list is
nonempty and the comparator consequently reports differences. -/
theorem structure_record_per_source_table_witness :
    db1.tables ≠ [] ∧ (CompareDifferences db1 db1 []).HasDifferences = true :=
  ⟨by decide, (structure_record_per_source_table db1 db1 []).2.1 (by decide)⟩

/-! ### C1: the round-trip property fails on the code -/

/-- C1 (claim fails; evaluation at the failing input): source and target are
the identical database `db1`, the generator emits no statement — so applying
its output leaves the target untouched and every statement trivially
succeeds — and still the re-run comparator reports a difference and
VerifySync returns `passed = false`, against the claimed round trip and the
claim that identical databases yield `HasDifferences() == false`. -/
theorem roundTrip_fails_identical_database :
    GenerateSQL (CompareDifferences db1 db1 []) = []
      ∧ (CompareDifferences db1 db1 []).HasDifferences = true
      ∧ VerifySync db1 db1 [] =
          (false, "Sync verification failed! Still have differences:\n" ++
            "Structure differences: 1\nData differences: 0\nView differences: 0") := by
  decide

/-! ### C2: the new-table statement is assembled, not verbatim -/

/-- C2 (claim fails; evaluation at the failing input): for a source table `t`
absent from the target, exactly one creation statement is emitted, but its
text is assembled field by field from the modelled columns and primary key
(`generateCreateTableSQL`); the generator consults no native
describe-creation facility and has no failure path (cf. `GenerateSQL`, which
is total), against the claimed verbatim text and DefinitionFetchError. -/
theorem new_table_statement_assembled_not_verbatim :
    (CompareDifferences dbNewSrc dbEmpty []).StructureDifferences.map (·.IsNewTable) = [true]
      ∧ GenerateSQL (CompareDifferences dbNewSrc dbEmpty []) =
          ["CREATE TABLE `t` (\n  `id` INT,\n  PRIMARY KEY (`id`)\n);"]
      ∧ GenerateSQL (CompareDifferences dbNewSrc dbEmpty []) =
          [generateCreateTableSQL "t" (dbNewSrc.GetTableDefinition "t")] := by
  decide

/-! ### C3: comment differences do not make columns unequal -/

/-- C3 (claim fails; evaluation at the failing input): two columns identical
except for their comments are reported equal by `columnsEqual`, and
`compareColumns` classifies no ColumnModification for them, against the
claim (and the repository documentation) that comments are compared. -/
theorem comment_only_difference_not_detected :
    commentedCol.Comment ≠ recommentedCol.Comment
      ∧ columnsEqual recommentedCol commentedCol = true
      ∧ (compareColumns [recommentedCol] [commentedCol]).2 = [] := by
  decide

/-! ### C4: view normalization is not whitespace-invariant -/

/-- C4 (claim fails; evaluation at the failing input): the bodies `"a b"` and
`"a\n\nb"` differ only in whitespace (same `Fields`), yet normalize to
`"a b"` and `"a  b"` — the double-space collapse runs before newlines are
turned into spaces — so the comparator records a MODIFY ViewDifference for a
view whose two bodies differ only in whitespace. -/
theorem view_whitespace_normalization_not_invariant :
    goFields "a b".data = goFields "a\n\nb".data
      ∧ normalizeViewDefinition "a b" = "a b"
      ∧ normalizeViewDefinition "a\n\nb" = "a  b"
      ∧ normalizeViewDefinition "a b" ≠ normalizeViewDefinition "a\n\nb"
      ∧ compareViews dbViewSpace dbViewNewlines =
          [{ ViewName := "v", Operation := "MODIFY",
             OldDefinition := "a\n\nb", NewDefinition := "a b" }] := by
  decide

/-! ### C5: per-statement results, fault isolation, summary -/

/-- The execution loop visits every statement in order: it is the elementwise
image of `executeSingleSQL`. -/
theorem ExecuteSQL_eq_map (exec : String → Option String) :
    ∀ sqls, ExecuteSQL exec sqls = sqls.map (executeSingleSQL exec) := by
  intro sqls
  induction sqls with
  | nil => rfl
  | cons sql rest ih => simp [ExecuteSQL, ih]

/-- The success/failure counting fold of GetSummary counts the filtered
sublists, whatever the accumulator. -/
theorem summary_foldl (l : List ExecutionResult) : ∀ a b : Nat,
    l.foldl (fun (p : Nat × Nat) r => if r.Success then (p.1 + 1, p.2) else (p.1, p.2 + 1)) (a, b)
      = (a + (l.filter fun r => r.Success).length,
          b + (l.filter fun r => !r.Success).length) := by
  induction l with
  | nil => intro a b; simp
  | cons r rest ih =>
    intro a b
    by_cases hs : r.Success <;> simp [hs, ih, Prod.ext_iff] <;> omega

/-- A filter and its negation split a list's length. -/
theorem length_filter_add_length_filter_not {α : Type} (p : α → Bool) :
    ∀ l : List α, (l.filter p).length + (l.filter fun x => !p x).length = l.length := by
  intro l
  induction l with
  | nil => rfl
  | cons x rest ih => by_cases hx : p x <;> simp [hx, ih] <;> omega

/-- C5: ExecuteSQL yields exactly one result per statement in input order;
a result's statement, success flag and error are those of its own statement
(failures carry the error, successes carry none, and later statements are
still executed since every statement is mapped); GetSummary reports
`(total, succeeded, failed)` with `total` the number of statements and
`total = succeeded + failed`; and three statements of which only the second
fails give results `[success, failure, success]` and summary `(3, 2, 1)`. -/
theorem executor_per_statement_results (exec : String → Option String) (sqls : List String) :
    ExecuteSQL exec sqls = sqls.map (executeSingleSQL exec)
      ∧ (∀ sql, (executeSingleSQL exec sql).SQL = sql
          ∧ (executeSingleSQL exec sql).Success = (exec sql).isNone
          ∧ (executeSingleSQL exec sql).Error = exec sql)
      ∧ (GetSummary (ExecuteSQL exec sqls)).1 = sqls.length
      ∧ (GetSummary (ExecuteSQL exec sqls)).1 =
          (GetSummary (ExecuteSQL exec sqls)).2.1 + (GetSummary (ExecuteSQL exec sqls)).2.2
      ∧ (ExecuteSQL (fun s => if s = "B" then some "duplicate column" else none)
          ["A", "B", "C"]).map (fun r => (r.Success, r.Error)) =
            [(true, none), (false, some "duplicate column"), (true, none)]
      ∧ GetSummary (ExecuteSQL (fun s => if s = "B" then some "duplicate column" else none)
          ["A", "B", "C"]) = (3, 2, 1) := by
  refine ⟨ExecuteSQL_eq_map exec sqls, ?_, ?_, ?_, by decide, by decide⟩
  · intro sql
    cases h : exec sql <;> simp [executeSingleSQL, h]
  · simp [GetSummary, ExecuteSQL_eq_map]
  · simp only [GetSummary, summary_foldl, Nat.zero_add]
    exact (length_filter_add_length_filter_not _ _).symm

/-! ### C6: block order of the generated statement list -/

/-- An accumulating fold that appends each image is the initial list followed
by the joined images. -/
theorem foldl_append_join {α β : Type} (f : α → List β) :
    ∀ (l : List α) (init : List β),
      l.foldl (fun acc x => acc ++ f x) init = init ++ (l.map f).flatten := by
  intro l
  induction l with
  | nil => intro init; simp
  | cons x rest ih => intro init; simp [ih]

/-- An accumulating fold that appends a singleton under a guard is the
initial list followed by the filtered images. -/
theorem foldl_guard_append {α β : Type} (p : α → Bool) (g : α → β) :
    ∀ (l : List α) (init : List β),
      l.foldl (fun acc x => if p x then acc ++ [g x] else acc) init
        = init ++ (l.filter p).map g := by
  intro l
  induction l with
  | nil => intro init; simp
  | cons x rest ih =>
    intro init
    by_cases hx : p x <;> simp [hx, ih]

/-- C6: the generated statement list is four consecutive blocks — DROP VIEW
statements for every view difference whose operation is DROP or MODIFY, then
all structural statements, then CREATE VIEW statements for every view
difference whose operation is CREATE or MODIFY, then all data statements —
and within one table's data statements every insert precedes every update,
which precedes every delete. -/
theorem generated_sql_block_order (diff : SyncDifference) :
    GenerateSQL diff =
        ((diff.ViewDifferences.filter fun viewDiff =>
            viewDiff.Operation == "DROP" || viewDiff.Operation == "MODIFY").map
          fun viewDiff => "DROP VIEW IF EXISTS `" ++ viewDiff.ViewName ++ "`;")
        ++ (diff.StructureDifferences.map generateStructureSQL).flatten
        ++ ((diff.ViewDifferences.filter fun viewDiff =>
            viewDiff.Operation == "CREATE" || viewDiff.Operation == "MODIFY").map
          fun viewDiff => "CREATE VIEW `" ++ viewDiff.ViewName ++ "` AS " ++
            viewDiff.NewDefinition ++ ";")
        ++ (diff.DataDifferences.map fun p => generateDataSQL p.2).flatten
      ∧ ∀ dataDiff : DataDifference,
          generateDataSQL dataDiff =
            dataDiff.RowsToInsert.map (insertRowSQL dataDiff.TableName)
              ++ dataDiff.RowsToUpdate.map
                  (generateUpdateSQL dataDiff.TableName dataDiff.PrimaryKeyName)
              ++ dataDiff.RowsToDelete.map
                  (deleteRowSQL dataDiff.TableName dataDiff.PrimaryKeyName) := by
  constructor
  · simp only [GenerateSQL, foldl_guard_append, foldl_append_join, List.nil_append,
      List.append_assoc]
  · intro dataDiff
    simp only [generateDataSQL, generateInsertSQL, generateDeleteSQL]
    split_ifs with h1 h2 h3 <;>
      simp_all [List.length_pos, List.length_eq_zero]

/-! ### C9: the UPDATE statement's SET and WHERE clauses -/

/-- Scenario C of the spec: source row `{id:3, name:"Bob"}` against target row
`{id:3, name:"Robert"}`, primary key `id`. -/
def scenarioCUpdate : UpdateRow :=
  { PrimaryKeyValue := .vInt 3,
    OldValues := [("id", .vInt 3), ("name", .vStr "Robert")],
    NewValues := [("id", .vInt 3), ("name", .vStr "Bob")] }

/-- C9: the SET parts of a generated UPDATE are exactly one assignment per
column of the new row values other than the primary-key column (the
primary key is never assigned), the full statement is the SET clause joined
from those parts followed by an equality filter on the primary-key column
against the row's primary-key value, and Scenario C produces the expected
statement. -/
theorem update_sql_excludes_primary_key (tableName pkColumn : String) (updateRow : UpdateRow) :
    updateSetParts pkColumn updateRow.NewValues =
        (updateRow.NewValues.filter fun p => !(p.1 == pkColumn)).map
          (fun p => "`" ++ p.1 ++ "` = " ++ escapeValue p.2)
      ∧ generateUpdateSQL tableName pkColumn updateRow =
          "UPDATE `" ++ tableName ++ "` SET " ++
            String.intercalate ", "
              (((updateRow.NewValues.filter fun p => !(p.1 == pkColumn)).map
                (fun p => "`" ++ p.1 ++ "` = " ++ escapeValue p.2))) ++
            " WHERE `" ++ pkColumn ++ "` = " ++ escapeValue updateRow.PrimaryKeyValue ++ ";"
      ∧ generateUpdateSQL "t" "id" scenarioCUpdate =
          "UPDATE `t` SET `name` = 'Bob' WHERE `id` = 3;" := by
  have hset : ∀ (pk : String) (row : Row),
      updateSetParts pk row =
        (row.filter fun p => !(p.1 == pk)).map
          (fun p => "`" ++ p.1 ++ "` = " ++ escapeValue p.2) := by
    intro pk row
    induction row with
    | nil => rfl
    | cons p rest ih =>
      by_cases hp : p.1 = pk <;> simp [updateSetParts, hp, ih]
  refine ⟨hset pkColumn updateRow.NewValues, ?_, by decide⟩
  simp only [generateUpdateSQL, hset, String.append_assoc]
  rw [← String.append_assoc " WHERE " "`",
    show (" WHERE " : String) ++ "`" = " WHERE `" from rfl]

/-! ### C7: normalizeType strips the first parenthesized group -/

/-- Searching past a prefix that lacks the character shifts the found index by
the prefix length. -/
theorem indexOfChar_append_of_not_mem (c : Char) :
    ∀ (l : List Char), c ∉ l →
      ∀ r, indexOfChar c (l ++ r) = (indexOfChar c r).map (fun n => n + l.length) := by
  intro l
  induction l with
  | nil => intro _ r; cases h2 : indexOfChar c r <;> simp [h2]
  | cons x xs ih =>
    intro h r
    have hx : ¬ x = c := fun he => h (he ▸ List.mem_cons_self x xs)
    have hxs : c ∉ xs := fun hm => h (List.mem_cons_of_mem _ hm)
    cases h2 : indexOfChar c r <;>
      simp [indexOfChar, hx, ih hxs, h2, Nat.add_assoc]

/-- C7: on a type string made of a nonempty head (free of parentheses), a
first parenthesized group and a tail, `normalizeType` uppercases, removes
exactly that group keeping the tail, trims and collapses whitespace runs to
single spaces; in particular `INT(11)` and `INT` normalize alike,
`TINYINT(1) UNSIGNED` normalizes to `TINYINT UNSIGNED`, and internal
whitespace runs collapse. -/
theorem normalizeType_strips_first_group (a b c : List Char)
    (ha : a ≠ []) (h1 : '(' ∉ goToUpper a) (h2 : ')' ∉ goToUpper a)
    (h3 : ')' ∉ goToUpper b) :
    normalizeTypeCh (a ++ '(' :: b ++ ')' :: c)
        = joinSpace (goFields (goTrimSpace (goToUpper (a ++ c))))
      ∧ normalizeType "INT(11)" = normalizeType "INT"
      ∧ normalizeType "TINYINT(1) UNSIGNED" = "TINYINT UNSIGNED"
      ∧ normalizeType "DECIMAL(10,2)  UNSIGNED   ZEROFILL" = "DECIMAL UNSIGNED ZEROFILL" := by
  refine ⟨?_, by decide, by decide, by decide⟩
  have hu : goToUpper (a ++ '(' :: b ++ ')' :: c)
      = goToUpper a ++ '(' :: (goToUpper b ++ ')' :: goToUpper c) := by
    simp [goToUpper, List.map_append, show Char.toUpper '(' = '(' by decide,
      show Char.toUpper ')' = ')' by decide]
  have hidx : indexOfChar '(' (goToUpper a ++ '(' :: (goToUpper b ++ ')' :: goToUpper c))
      = some (goToUpper a).length := by
    rw [indexOfChar_append_of_not_mem '(' (goToUpper a) h1]
    simp [indexOfChar]
  have hend : indexOfChar ')' (goToUpper a ++ '(' :: (goToUpper b ++ ')' :: goToUpper c))
      = some ((goToUpper b).length + 1 + (goToUpper a).length) := by
    rw [indexOfChar_append_of_not_mem ')' (goToUpper a) h2]
    simp only [indexOfChar, if_neg (show ¬ '(' = ')' by decide)]
    rw [indexOfChar_append_of_not_mem ')' (goToUpper b) h3]
    simp [indexOfChar]
  have hlen : 0 < (goToUpper a).length := by
    simpa [goToUpper] using List.length_pos.mpr ha
  simp only [normalizeTypeCh, hu, hidx, hend]
  rw [if_pos ⟨hlen, by omega⟩]
  have htake : (goToUpper a ++ '(' :: (goToUpper b ++ ')' :: goToUpper c)).take
      (goToUpper a).length = goToUpper a := List.take_left _ _
  have hassoc : goToUpper a ++ '(' :: (goToUpper b ++ ')' :: goToUpper c)
      = (goToUpper a ++ '(' :: goToUpper b ++ [')']) ++ goToUpper c := by
    simp
  have hdrop : (goToUpper a ++ '(' :: (goToUpper b ++ ')' :: goToUpper c)).drop
      ((goToUpper b).length + 1 + (goToUpper a).length + 1) = goToUpper c := by
    rw [hassoc]
    refine List.drop_left' ?_
    simp [List.length_append]
    omega
  rw [htake, hdrop]
  simp [goToUpper, List.map_append]

/-- Witness for C7 at `a = "INT"`, `b = "11"`, `c = ""`: the hypotheses hold
and the group is removed. -/
theorem normalizeType_strips_first_group_witness :
    normalizeTypeCh ("INT".data ++ '(' :: "11".data ++ ')' :: [])
      = joinSpace (goFields (goTrimSpace (goToUpper ("INT".data ++ [])))) :=
  (normalizeType_strips_first_group "INT".data "11".data []
    (by decide) (by decide) (by decide) (by decide)).1

/-! ### C8: row equality by key set and textual rendering -/

/-- A successful map lookup comes from an entry of the association list. -/
theorem mem_of_lookupRow {r : Row} {k : String} {v : Value}
    (h : lookupRow r k = some v) : (k, v) ∈ r := by
  unfold lookupRow at h
  cases hf : List.find? (fun p => p.1 = k) r with
  | none => rw [hf] at h; cases h
  | some p0 =>
    rw [hf] at h
    have hk : p0.1 = k := by
      have hx := List.find?_some hf
      simpa using hx
    have hv : p0.2 = v := Option.some.inj h
    have : (k, v) = p0 := by rw [← hk, ← hv]
    exact this ▸ List.mem_of_find?_eq_some hf

/-- A key present in the key list has a successful lookup. -/
theorem lookupRow_isSome_of_mem_keys {r : Row} {k : String}
    (h : k ∈ r.map Prod.fst) : ∃ v, lookupRow r k = some v := by
  obtain ⟨p, hp, hk⟩ := List.mem_map.mp h
  have hs : (List.find? (fun p => p.1 = k) r).isSome :=
    List.find?_isSome.mpr ⟨p, hp, decide_eq_true hk⟩
  cases hf : List.find? (fun p => p.1 = k) r with
  | none => rw [hf] at hs; cases hs
  | some p0 => exact ⟨p0.2, by simp [lookupRow, hf]⟩

/-- With distinct keys, an entry determines its lookup. -/
theorem lookupRow_of_mem_nodup {r : Row} {k : String} {v : Value}
    (hnd : (r.map Prod.fst).Nodup) (h : (k, v) ∈ r) : lookupRow r k = some v := by
  induction r with
  | nil => cases h
  | cons p rest ih =>
    rcases List.mem_cons.mp h with heq | hmem
    · subst heq
      simp [lookupRow, List.find?]
    · have hnd' : p.1 ∉ rest.map Prod.fst ∧ (rest.map Prod.fst).Nodup := by
        rw [List.map_cons] at hnd
        exact List.nodup_cons.mp hnd
      by_cases hp : p.1 = k
      · exfalso
        have hk2 : k ∈ rest.map Prod.fst := List.mem_map.mpr ⟨(k, v), hmem, rfl⟩
        exact hnd'.1 (hp ▸ hk2)
      · have := ih hnd'.2 hmem
        simpa [lookupRow, List.find?, hp] using this

/-- C8: `rowsEqual` holds exactly when the two rows have identical key sets
and every shared key's two values have identical `%v` renderings — so a
driver-typed integer 1 and the string "1" compare equal — and the comparator
classifies a row pair as an update only when `rowsEqual` is false on it. -/
theorem rows_equal_iff (row1 row2 : Row)
    (h1 : (row1.map Prod.fst).Nodup) (h2 : (row2.map Prod.fst).Nodup) :
    (rowsEqual row1 row2 = true ↔
        ((∀ k, k ∈ row1.map Prod.fst ↔ k ∈ row2.map Prod.fst)
          ∧ ∀ k v1 v2, lookupRow row1 k = some v1 → lookupRow row2 k = some v2 →
              render v1 = render v2))
      ∧ rowsEqual [("id", Value.vInt 1)] [("id", Value.vStr "1")] = true
      ∧ ∀ (src tgt : Database) (tableName pk : String) (u : UpdateRow),
          u ∈ (compareTableDataByPrimaryKey src tgt tableName pk).RowsToUpdate →
            rowsEqual u.NewValues u.OldValues = false := by
  refine ⟨?_, by decide, ?_⟩
  · constructor
    · intro hEq
      have hlen : row1.length = row2.length := by
        by_contra hne
        simp only [rowsEqual, if_pos hne] at hEq
        cases hEq
      have hall : ∀ p ∈ row1,
          (match lookupRow row2 p.1 with
           | none => false
           | some val2 => render p.2 == render val2) = true := by
        have h' := hEq
        simp only [rowsEqual] at h'
        rw [if_neg (fun h => h hlen)] at h'
        exact List.all_eq_true.mp h'
      have hsub : row1.map Prod.fst ⊆ row2.map Prod.fst := by
        intro k hk
        obtain ⟨p, hp, hkeq⟩ := List.mem_map.mp hk
        have hm := hall p hp
        cases hl2 : lookupRow row2 p.1 with
        | none => rw [hl2] at hm; cases hm
        | some v2 =>
          have : (p.1, v2) ∈ row2 := mem_of_lookupRow hl2
          exact hkeq ▸ List.mem_map.mpr ⟨(p.1, v2), this, rfl⟩
      have hperm : List.Perm (row1.map Prod.fst) (row2.map Prod.fst) :=
        (h1.subperm hsub).perm_of_length_le (by simp [hlen])
      refine ⟨fun k => hperm.mem_iff, ?_⟩
      intro k v1 v2 hv1 hv2
      have hm := hall (k, v1) (mem_of_lookupRow hv1)
      rw [hv2] at hm
      exact eq_of_beq hm
    · rintro ⟨hmem, hrend⟩
      have hsub1 : row1.map Prod.fst ⊆ row2.map Prod.fst := fun k hk => (hmem k).mp hk
      have hsub2 : row2.map Prod.fst ⊆ row1.map Prod.fst := fun k hk => (hmem k).mpr hk
      have hlen : row1.length = row2.length := by
        have l1 := (h1.subperm hsub1).length_le
        have l2 := (h2.subperm hsub2).length_le
        simp only [List.length_map] at l1 l2
        omega
      simp only [rowsEqual]
      rw [if_neg (fun h => h hlen)]
      refine List.all_eq_true.mpr ?_
      rintro ⟨k, v1⟩ hmem1
      have hv1 : lookupRow row1 k = some v1 := lookupRow_of_mem_nodup h1 hmem1
      have hk2 : k ∈ row2.map Prod.fst := hsub1 (List.mem_map.mpr ⟨(k, v1), hmem1, rfl⟩)
      obtain ⟨v2, hv2⟩ := lookupRow_isSome_of_mem_keys hk2
      simp only [hv2]
      exact beq_iff_eq.mpr (hrend k v1 v2 hv1 hv2)
  · rintro src tgt tableName pk u hu
    simp only [compareTableDataByPrimaryKey] at hu
    rw [List.mem_filterMap] at hu
    obtain ⟨v, _, hf⟩ := hu
    by_cases hc : (tgt.GetPrimaryKeyValues tableName pk).contains v
    · rw [if_pos hc] at hf
      by_cases hr : rowsEqual (src.GetRowByPrimaryKey tableName pk v)
          (tgt.GetRowByPrimaryKey tableName pk v) = true
      · rw [if_pos hr] at hf; cases hf
      · rw [if_neg hr] at hf
        have := Option.some.inj hf
        subst this
        cases hb : rowsEqual (src.GetRowByPrimaryKey tableName pk v)
            (tgt.GetRowByPrimaryKey tableName pk v)
        · rfl
        · exact absurd hb hr
    · rw [if_neg hc] at hf; cases hf

/-- Witness for C8 at two concrete one-column rows with distinct-key
hypotheses discharged: the integer 1 and the string "1" compare equal. -/
theorem rows_equal_iff_witness :
    rowsEqual [("id", Value.vInt 1)] [("id", Value.vStr "1")] = true :=
  (rows_equal_iff [("id", Value.vInt 1)] [("id", Value.vStr "1")]
    (by decide) (by decide)).2.1

end YuhuoSync
